import Mathlib

/-!
Shallow embedding of the Llama Stack chat service
(`streamlit_llamastack/service.py` and `llama_stack_service.py`):
the turn-detail normalizer, the client/agent/session cache, the
model-list retrieval and the simple send path, together with theorems
about the behaviour of these functions.
-/

namespace StreamlitLlamastack

/-- A tool call as produced by an inference step
(`tool_name`, `arguments`, `call_id` attributes). -/
structure ToolCall where
  tool_name : String
  arguments : List (String × String)
  call_id : String
deriving DecidableEq

/-- A tool response carried by a tool-execution step
(`call_id`, `content`, `tool_name` attributes). -/
structure ToolResponse where
  call_id : String
  content : String
  tool_name : String
deriving DecidableEq

/-- The `api_model_response` object attached to an inference step.
Missing attributes default to `""` / `[]` exactly like the
`getattr(..., default)` calls in the source. -/
structure ApiModelResponse where
  content : String
  role : String
  stop_reason : String
  tool_calls : List ToolCall
deriving DecidableEq

/-- One step of a raw turn.  `step_type` is an arbitrary string tag
(the source dispatches on `"inference"` and `"tool_execution"` and
ignores everything else); `step_id = none` models a step object without
a `step_id` attribute, in which case the source falls back to
`f"step_{i}"` for the loop index `i`. -/
structure Step where
  step_type : String
  step_id : Option String
  api_model_response : Option ApiModelResponse
  tool_calls : List ToolCall
  tool_responses : List ToolResponse
deriving DecidableEq

/-- A raw step as seen by the extraction loop: either a well-formed step
object, or a malformed object whose attribute processing raises a Python
exception with the given message (e.g. a non-iterable `tool_responses`
value).  The `except` clause of the extraction `try` block catches such
errors. -/
inductive RawStep where
  | ok (s : Step)
  | bad (msg : String)
deriving DecidableEq

/-- Is this raw step a well-formed step object? -/
def RawStep.isOk : RawStep → Bool
  | .ok _ => true
  | .bad _ => false

/-- The raw turn object returned by `agent.create_turn`.  The five
optional identifier fields model `getattr(turn, attr, None)` for the
candidate attribute names probed by the source; `repr` models
`str(turn)`. -/
structure RawTurn where
  id : Option String
  turn_id : Option String
  identifier : Option String
  uuid : Option String
  turn_uuid : Option String
  repr : String
  status : Option String
  steps : List RawStep
  created_at : Option String
  completed_at : Option String
deriving DecidableEq

/-- One entry of `turn_details["reasoning_steps"]`: either an
`{"type": "inference", ...}` dict carrying a tool-call count, or a
`{"type": "final_response", ...}` dict. -/
inductive ReasoningStep where
  | inference (content : String) (step_id : String) (tool_calls : Nat)
  | final_response (content : String) (step_id : String)
deriving DecidableEq

/-- One entry of `turn_details["tool_usage"]`.  `arguments = none` and
`output = none` model dicts in which the corresponding key is absent. -/
structure ToolUsage where
  tool_name : String
  arguments : Option (List (String × String))
  call_id : String
  step_id : String
  status : String
  output : Option String
deriving DecidableEq

/-- The `turn_details` dictionary built by
`send_message_with_turn_details`. -/
structure TurnDetails where
  success : Bool
  final_response : String
  reasoning_steps : List ReasoningStep
  tool_usage : List ToolUsage
  turn_id : String
  status : String
  raw_turn : String
  error : Option String
  created_at : Option String
  completed_at : Option String
deriving DecidableEq

/-- The fixed placeholder used to initialise `final_response`
(line 290 of `service.py`). -/
def placeholderResponse : String :=
  "Sorry, I couldn't process your request properly."

/-- Python truthiness of the probed attribute value: `if value:` is
taken only for a present, non-empty string. -/
def probeId : List (Option String) → Option String
  | [] => none
  | some s :: rest => if s = "" then probeId rest else some s
  | none :: rest => probeId rest

/-- Whitespace characters matched by the regex class in
`re.search(r'id=([^,\s]+)', turn_str)`. -/
def isPySpace (c : Char) : Bool :=
  c == ' ' || c == '\t' || c == '\n' || c == '\r' ||
    c == Char.ofNat 11 || c == Char.ofNat 12

/-- A character admissible inside the captured group of the
`id=([^,\s]+)` pattern: anything but a comma or whitespace. -/
def idValueChar (c : Char) : Bool :=
  !(c == ',' || isPySpace c)

/-- Match the regex `id=([^,\s]+)` at the start of the character list:
the literal characters `i`, `d`, `=` followed by a non-empty maximal run
of admissible characters; returns the captured run. -/
def matchIdAt (l : List Char) : Option (List Char) :=
  if l.take 3 = ['i', 'd', '='] then
    let run := (l.drop 3).takeWhile idValueChar
    if run = [] then none else some run
  else none

/-- `re.search` semantics for the pattern `id=([^,\s]+)`: scan positions
left to right and return the captured group of the first position where
the whole pattern matches. -/
def searchIdEq : List Char → Option (List Char)
  | [] => none
  | c :: rest =>
    match matchIdAt (c :: rest) with
    | some run => some run
    | none => searchIdEq rest

/-- The guard `if "id=" in turn_str:` — does the literal substring
`id=` occur anywhere in the list? -/
def containsIdEq : List Char → Bool
  | [] => false
  | c :: rest => decide ((c :: rest).take 3 = ['i', 'd', '=']) || containsIdEq rest

/-- Turn-id resolution (lines 303-320 of `service.py`): probe the
candidate attributes `id`, `turn_id`, `identifier`, `uuid`, `turn_uuid`
in order and take the first truthy value; otherwise, if `"id="` occurs
in `str(turn)`, capture the first `id=<value>` match; otherwise keep
`"unknown"`. -/
def resolveTurnId (turn : RawTurn) : String :=
  match probeId [turn.id, turn.turn_id, turn.identifier, turn.uuid, turn.turn_uuid] with
  | some v => v
  | none =>
    if containsIdEq turn.repr.toList then
      match searchIdEq turn.repr.toList with
      | some run => String.mk run
      | none => "unknown"
    else "unknown"

/-- The initial `turn_details` dictionary (lines 288-296) after turn-id
resolution, before the extraction `try` block runs. -/
def initDetails (turn : RawTurn) : TurnDetails where
  success := true
  final_response := placeholderResponse
  reasoning_steps := []
  tool_usage := []
  turn_id := resolveTurnId turn
  status := turn.status.getD "unknown"
  raw_turn := turn.repr
  error := none
  created_at := none
  completed_at := none

/-- `step_id = getattr(step, "step_id", f"step_{i}")` (line 332). -/
def stepIdOf (i : Nat) (s : Step) : String :=
  s.step_id.getD ("step_" ++ toString i)

/-- Update the first `tool_usage` entry whose `call_id` matches (the
`for ... if ... break` search of lines 393-398); `none` when no entry
matches. -/
def updateFirst (cid content sid : String) : List ToolUsage → Option (List ToolUsage)
  | [] => none
  | u :: rest =>
    if u.call_id = cid then
      some ({ u with output := some content, status := "completed", step_id := sid } :: rest)
    else
      (updateFirst cid content sid rest).map (u :: ·)

/-- Process one tool response (lines 387-408): update the first matching
`tool_usage` entry in place, or — the `for ... else` arm — append a new
completed entry without an `arguments` key. -/
def processToolResponse (tu : List ToolUsage) (sid : String) (tr : ToolResponse) : List ToolUsage :=
  match updateFirst tr.call_id tr.content sid tu with
  | some tu2 => tu2
  | none =>
    tu ++ [{ tool_name := tr.tool_name, arguments := none, call_id := tr.call_id,
             step_id := sid, status := "completed", output := some tr.content }]

/-- The body of the dispatch on `step_type` (lines 336-408), given the
already-resolved step id. -/
def processStepBody (sid : String) (td : TurnDetails) (s : Step) : TurnDetails :=
  if s.step_type = "inference" then
    match s.api_model_response with
    | none => td
    | some r =>
      if r.tool_calls ≠ [] then
        { td with
          reasoning_steps := td.reasoning_steps ++
            [.inference ("Assistant decided to use tools. Stop reason: " ++ r.stop_reason)
              sid r.tool_calls.length],
          tool_usage := td.tool_usage ++ r.tool_calls.map (fun tc =>
            { tool_name := tc.tool_name, arguments := some tc.arguments,
              call_id := tc.call_id, step_id := sid, status := "requested",
              output := none }) }
      else if r.content ≠ "" then
        { td with
          final_response := r.content,
          reasoning_steps := td.reasoning_steps ++
            [.final_response ("Final response generated. Stop reason: " ++ r.stop_reason) sid] }
      else td
  else if s.step_type = "tool_execution" then
    { td with tool_usage := s.tool_responses.foldl (fun tu tr => processToolResponse tu sid tr) td.tool_usage }
  else td

/-- Process one well-formed step at loop index `i`. -/
def processOkStep (i : Nat) (td : TurnDetails) (s : Step) : TurnDetails :=
  processStepBody (stepIdOf i s) td s

/-- The extraction loop (lines 330-408): process steps in order; a
malformed step raises, carrying the message and the details built so
far out to the `except` clause. -/
def processStepsE (i : Nat) (td : TurnDetails) : List RawStep → Except (String × TurnDetails) TurnDetails
  | [] => .ok td
  | .bad msg :: _ => .error (msg, td)
  | .ok s :: rest => processStepsE (i + 1) (processOkStep i td s) rest

/-- Process a list of well-formed steps (the successful prefix of the
extraction loop). -/
def processOkSteps (i : Nat) (td : TurnDetails) : List Step → TurnDetails
  | [] => td
  | s :: rest => processOkSteps (i + 1) (processOkStep i td s) rest

/-- The whole normalization of a raw turn (lines 288-420): initialise,
resolve the turn id, run the extraction loop under `try`; on success
also copy `created_at` / `completed_at`, on an extraction error set
`success = False` and `error` while keeping everything already built. -/
def normalizeTurn (turn : RawTurn) : TurnDetails :=
  match processStepsE 0 (initDetails turn) turn.steps with
  | .ok td => { td with created_at := turn.created_at, completed_at := turn.completed_at }
  | .error (msg, td) => { td with success := false, error := some msg }

/-- The cached `ReActAgent` handle: `agent_id` is the identity of the
constructed Python object, the remaining fields are the constructor
arguments fixed at creation time (lines 160-165). -/
structure Agent where
  agent_id : Nat
  model : String
  tools : List String
  instructions : String
deriving DecidableEq

/-- The mutable state of a `LlamaStackService` instance, together with
bookkeeping for the backend: `next_obj` is a freshness counter for
newly constructed objects (clients, agents, backend session ids) and
`agents_created` / `sessions_created` count constructor calls. -/
structure ServiceState where
  base_url : String
  client : Option Nat
  agent : Option Agent
  session_id : Option Nat
  next_obj : Nat
  agents_created : Nat
  sessions_created : Nat
deriving DecidableEq

/-- The fixed system instruction passed to the `ReActAgent`
constructor (line 164). -/
def reactInstructions : String :=
  "You are a web search assistant. Always Use the provided brave_search tool to find the answer for the user prompt."

/-- The `client` property (lines 28-43): return the cached client or
construct one. -/
def get_client (st : ServiceState) : ServiceState × Nat :=
  match st.client with
  | some c => (st, c)
  | none => ({ st with client := some st.next_obj, next_obj := st.next_obj + 1 }, st.next_obj)

/-- `get_agent` (lines 145-172): if no agent is cached, construct a
`ReActAgent` bound to the requested model (touching the `client`
property first); otherwise return the cached agent unchanged. -/
def get_agent (st : ServiceState) (model_id : String) : ServiceState × Agent :=
  match st.agent with
  | some a => (st, a)
  | none =>
    let p := get_client st
    let a : Agent :=
      { agent_id := p.1.next_obj, model := model_id,
        tools := ["builtin::websearch"], instructions := reactInstructions }
    let st2 : ServiceState :=
      { p.1 with agent := some a, next_obj := p.1.next_obj + 1, agents_created := p.1.agents_created + 1 }
    (st2, a)

/-- `get_session_id` (lines 174-197): if no session id is cached, get
the agent and call `agent.create_session`, which returns a fresh
backend session id; cache and return it.  Otherwise return the cached
id. -/
def get_session_id (st : ServiceState) (model_id : String) : ServiceState × Nat :=
  match st.session_id with
  | some sid => (st, sid)
  | none =>
    let p := get_agent st model_id
    let sid := p.1.next_obj
    let st2 : ServiceState :=
      { p.1 with session_id := some sid, next_obj := p.1.next_obj + 1, sessions_created := p.1.sessions_created + 1 }
    (st2, sid)

/-- `reset_session` (lines 434-437): drop only the cached session id. -/
def reset_session (st : ServiceState) : ServiceState :=
  { st with session_id := none }

/-- A model entry yielded by `client.models.list()`: an attribute-bearing
object (with optional `model_type`, `identifier`, `id`, `name`
attributes and a `str()` representation), a plain Python string, or a
malformed entry whose processing raises. -/
inductive ModelObj where
  | obj (model_type identifier mid name : Option String) (repr : String)
  | pystr (s : String)
  | bad (msg : String)
deriving DecidableEq

/-- Python truthiness of an optional string attribute. -/
def truthy : Option String → Bool
  | some s => !(s == "")
  | none => false

/-- The per-model body of `get_available_models` in
`streamlit_llamastack/service.py` (lines 62-99): skip models whose
truthy `model_type` lowercases to something other than `"llm"`, then
probe `identifier`, `id`, `name`, the plain-string case, and finally
fall back to `str(model)`; a raising entry is caught and skipped. -/
def processModel (acc : List String) (m : ModelObj) : List String :=
  match m with
  | .bad _ => acc
  | .pystr s => acc ++ [s]
  | .obj mt ident mid name rep =>
    if truthy mt && !((mt.getD "").toLower == "llm") then acc
    else if truthy ident then acc ++ [ident.getD ""]
    else if truthy mid then acc ++ [mid.getD ""]
    else if truthy name then acc ++ [name.getD ""]
    else acc ++ [rep]

/-- The per-model body of `get_available_models` in
`llama_stack_service.py` (lines 60-88): the same probes without the
`model_type` filter. -/
def processModelSimple (acc : List String) (m : ModelObj) : List String :=
  match m with
  | .bad _ => acc
  | .pystr s => acc ++ [s]
  | .obj _ ident mid name rep =>
    if truthy ident then acc ++ [ident.getD ""]
    else if truthy mid then acc ++ [mid.getD ""]
    else if truthy name then acc ++ [name.getD ""]
    else acc ++ [rep]

/-- The outcome of `client.models.list()`: a raised exception, a falsy
response (`None`), or a list of model entries. -/
def ModelsResponse := Except String (Option (List ModelObj))

/-- `get_available_models` in `streamlit_llamastack/service.py`
(lines 45-106): swallow a raised list call (returning `[]`), skip a
falsy response, otherwise fold the per-model body over the entries. -/
def get_available_models : ModelsResponse → List String
  | .error _ => []
  | .ok none => []
  | .ok (some ms) => ms.foldl processModel []

/-- `get_available_models` in `llama_stack_service.py` (lines 43-95). -/
def get_available_models_simple : ModelsResponse → List String
  | .error _ => []
  | .ok none => []
  | .ok (some ms) => ms.foldl processModelSimple []

/-- The `content` attribute value of an output message: a Python string,
or some other object with a `str()` representation and a truthiness. -/
inductive ContentVal where
  | str (s : String)
  | other (rep : String) (isTruthy : Bool)
deriving DecidableEq

/-- The `output_message` attribute of a turn object; `content = none`
models a missing or `None` content attribute. -/
structure OutputMessage where
  content : Option ContentVal
deriving DecidableEq

/-- The turn object handed to the response-extraction block of
`send_message`: a well-formed object (whose `output_message` attribute
may be absent), or a malformed one whose extraction raises. -/
inductive TurnResponse where
  | obj (output_message : Option OutputMessage) (rep : String)
  | bad (msg : String)
deriving DecidableEq

/-- The outcome of the backend interaction in `send_message`: either
agent/session creation or `create_turn` raised, or a turn object came
back. -/
def BackendOutcome := Except String TurnResponse

/-- `send_message` in `streamlit_llamastack/service.py` (lines 199-256):
a backend failure is caught and rendered as a marked error string;
extraction failures are caught and rendered as a fixed apology; all
other shapes fall through the attribute probes of lines 235-245.
Total — every path returns a string, never `None` and never an
exception. -/
def send_message : BackendOutcome → String
  | .error msg => "❌ Error communicating with ReActAgent: " ++ msg
  | .ok (.bad _) => "Sorry, I encountered an error processing the response."
  | .ok (.obj om rep) =>
    match om with
    | none => "No output message in response: " ++ rep
    | some m =>
      match m.content with
      | some (.str s) => s
      | some (.other r t) => if t then r else "No content in response"
      | none => "No content in response"

/-- The response object of `client.inference.chat_completion` as probed
by `send_message` in `llama_stack_service.py` (lines 156-165): an
object carrying `completion_message.content`, a Python dict (with an
optional `"content"` key), or any other object. -/
inductive ChatResponse where
  | completion (content : ContentVal)
  | dict (content : Option String) (rep : String)
  | other (rep : String)
deriving DecidableEq

/-- `send_message` in `llama_stack_service.py` (lines 132-172): any
raised error is caught and rendered as a marked error string; otherwise
the content is extracted by shape. -/
def send_message_simple : Except String ChatResponse → String
  | .error msg => "❌ Error communicating with model: " ++ msg
  | .ok (.completion (.str s)) => s
  | .ok (.completion (.other rep _)) => rep
  | .ok (.dict (some c) _) => c
  | .ok (.dict none rep) => rep
  | .ok (.other rep) => rep

/-- Does the string start with the `❌` error marker used throughout the
service for error strings? -/
def hasErrorMarker (s : String) : Bool :=
  "❌".data.isPrefixOf s.data

/-- Is this reasoning entry a `final_response` entry? -/
def isFinalEntry : ReasoningStep → Bool
  | .final_response _ _ => true
  | .inference _ _ _ => false

/-- A step qualifies for the final-response arm when it is an inference
step whose model response has no tool calls and non-empty content; the
returned triple is its content, stop reason and resolved step id. -/
def qualOf (i : Nat) (s : Step) : Option (String × String × String) :=
  match s.api_model_response with
  | some r =>
    if s.step_type = "inference" ∧ r.tool_calls = [] ∧ r.content ≠ "" then
      some (r.content, r.stop_reason, stepIdOf i s)
    else none
  | none => none

/-- The qualifying final-response steps of a step list, in encounter
order, cut off at the first malformed step (which aborts the loop). -/
def qualInfos (i : Nat) : List RawStep → List (String × String × String)
  | [] => []
  | .bad _ :: _ => []
  | .ok s :: rest => (qualOf i s).toList ++ qualInfos (i + 1) rest

/-- The reasoning entry appended for a qualifying final-response step. -/
def mkFinalEntry (q : String × String × String) : ReasoningStep :=
  .final_response ("Final response generated. Stop reason: " ++ q.2.1) q.2.2

/-- The content of the last element of the list, or the default when
the list is empty (last-write-wins accumulation). -/
def lastContent (d : String) : List (String × String × String) → String
  | [] => d
  | q :: rest => lastContent q.1 rest

/-- Is the optional attribute value Python-falsy (absent or empty)? -/
def probeFalsy (o : Option String) : Prop :=
  o = none ∨ o = some ""

/-- A well-formed inference step carrying a final response, with an
explicit or absent step id. -/
def finalStep (c : String) (sid : Option String) : Step :=
  { step_type := "inference", step_id := sid,
    api_model_response :=
      some { content := c, role := "assistant", stop_reason := "end_of_turn", tool_calls := [] },
    tool_calls := [], tool_responses := [] }

/-- A raw turn with the given steps and no discoverable identifier
data beyond the `id` attribute. -/
def mkTurn (steps : List RawStep) : RawTurn :=
  { id := some "t1", turn_id := none, identifier := none, uuid := none, turn_uuid := none,
    repr := "Turn(...)", status := some "completed", steps := steps,
    created_at := some "2026-01-01", completed_at := some "2026-01-02" }

/-- Concrete turn with two qualifying final-response steps. -/
def c1Turn : RawTurn :=
  mkTurn [.ok (finalStep "A" (some "s1")), .ok (finalStep "B" (some "s2"))]

/-- Concrete requested tool-usage entry as appended by the inference
arm. -/
def reqEntry : ToolUsage :=
  { tool_name := "websearch", arguments := some [("query", "capital of France")],
    call_id := "c1", step_id := "s0", status := "requested", output := none }

/-- Concrete tool response matching `reqEntry`. -/
def respC1 : ToolResponse :=
  { call_id := "c1", content := "Paris", tool_name := "websearch" }

/-- Concrete tool response matching nothing. -/
def respC9 : ToolResponse :=
  { call_id := "c9", content := "lost", tool_name := "websearch" }

/-- Concrete turn whose second step is malformed and raises `boom`
after a qualifying first step already set the final response. -/
def c4Turn : RawTurn :=
  mkTurn [.ok (finalStep "hello" (some "s1")), .bad "boom"]

/-- A well-formed step with an unrecognised step type. -/
def mysteryStep : Step :=
  { step_type := "mystery", step_id := none, api_model_response := none,
    tool_calls := [], tool_responses := [] }

/-- Base turn for the unknown-step insertion claim: one qualifying
inference step without an explicit step id. -/
def c5Base : RawTurn :=
  mkTurn [.ok (finalStep "hi" none)]

/-- The same turn with the unknown-tagged step inserted at position 0. -/
def c5Ins : RawTurn :=
  mkTurn [.ok mysteryStep, .ok (finalStep "hi" none)]

/-- Base turn for the amended insertion witness: an id-less
unknown-tagged step followed by an inference step with an explicit
step id. -/
def c5Mix : RawTurn :=
  mkTurn [.ok mysteryStep, .ok (finalStep "hi" (some "s1"))]

/-- The same turn with a second unknown-tagged step inserted at
position 0 — the steps after the insertion point include an id-less
step of unknown type, which the amended claim permits. -/
def c5MixIns : RawTurn :=
  mkTurn [.ok mysteryStep, .ok mysteryStep, .ok (finalStep "hi" (some "s1"))]

/-- Concrete turn for the turn-id resolution witness: the `id` probe is
falsy, the `turn_id` probe is present and non-empty. -/
def c6Turn : RawTurn :=
  { id := none, turn_id := some "t42", identifier := none, uuid := none, turn_uuid := none,
    repr := "Turn(id=abc, status=ok)", status := none, steps := [],
    created_at := none, completed_at := none }

/-- A freshly constructed service (`__init__`, lines 16-26): nothing
cached yet. -/
def freshService : ServiceState :=
  { base_url := "http://localhost:8321", client := none, agent := none,
    session_id := none, next_obj := 0, agents_created := 0, sessions_created := 0 }

theorem updateFirst_eq_none (cid content sid : String) (tu : List ToolUsage)
    (h : ∀ v ∈ tu, v.call_id ≠ cid) : updateFirst cid content sid tu = none := by
  induction tu with
  | nil => rfl
  | cons u rest ih =>
    have hu : u.call_id ≠ cid := h u (List.mem_cons_self u rest)
    simp only [updateFirst, if_neg hu, ih fun v hv => h v (List.mem_cons_of_mem u hv),
      Option.map_none']

theorem updateFirst_first_match (cid content sid : String) (pre post : List ToolUsage)
    (u : ToolUsage) (hu : u.call_id = cid) (hpre : ∀ v ∈ pre, v.call_id ≠ cid) :
    updateFirst cid content sid (pre ++ u :: post)
      = some (pre ++ { u with output := some content, status := "completed", step_id := sid } :: post) := by
  induction pre with
  | nil => simp [updateFirst, hu]
  | cons v pre ih =>
    have hv : v.call_id ≠ cid := hpre v (List.mem_cons_self v pre)
    have ih' := ih fun w hw => hpre w (List.mem_cons_of_mem v hw)
    simp only [List.cons_append, updateFirst, if_neg hv, List.append_eq, ih',
      Option.map_some']

/-- C2: a tool response whose call id matches a previously requested
entry (and matches no entry before it) updates that entry in place —
output, status and step id are rewritten, every other entry is
untouched, nothing is appended, and the table size is unchanged. -/
theorem c2_matched_response_updates_in_place (pre post : List ToolUsage) (u : ToolUsage)
    (sid : String) (tr : ToolResponse) (hu : u.call_id = tr.call_id)
    (_hreq : u.status = "requested") (hpre : ∀ v ∈ pre, v.call_id ≠ tr.call_id) :
    processToolResponse (pre ++ u :: post) sid tr
        = pre ++ { u with output := some tr.content, status := "completed", step_id := sid } :: post
    ∧ (processToolResponse (pre ++ u :: post) sid tr).length = (pre ++ u :: post).length := by
  have h := updateFirst_first_match tr.call_id tr.content sid pre post u hu hpre
  constructor
  · simp only [processToolResponse, h]
  · simp only [processToolResponse, h, List.length_append, List.length_cons]

theorem c2_witness :
    processToolResponse [reqEntry] "s2" respC1
        = [{ tool_name := "websearch", arguments := some [("query", "capital of France")],
             call_id := "c1", step_id := "s2", status := "completed", output := some "Paris" }]
    ∧ (processToolResponse [reqEntry] "s2" respC1).length = [reqEntry].length :=
  c2_matched_response_updates_in_place [] [] reqEntry "s2" respC1 rfl rfl (by simp)

/-- C3: a tool response whose call id matches no existing entry appends
exactly one new completed entry, with the response content as output
and no arguments field, growing the table by one. -/
theorem c3_unmatched_response_appends (tu : List ToolUsage) (sid : String) (tr : ToolResponse)
    (h : ∀ v ∈ tu, v.call_id ≠ tr.call_id) :
    processToolResponse tu sid tr
        = tu ++ [{ tool_name := tr.tool_name, arguments := none, call_id := tr.call_id,
                   step_id := sid, status := "completed", output := some tr.content }]
    ∧ (processToolResponse tu sid tr).length = tu.length + 1 := by
  have hn := updateFirst_eq_none tr.call_id tr.content sid tu h
  constructor
  · simp only [processToolResponse, hn]
  · simp only [processToolResponse, hn, List.length_append, List.length_cons,
      List.length_nil]

theorem c3_witness :
    processToolResponse [reqEntry] "s2" respC9
        = [reqEntry,
           { tool_name := "websearch", arguments := none, call_id := "c9",
             step_id := "s2", status := "completed", output := some "lost" }]
    ∧ (processToolResponse [reqEntry] "s2" respC9).length = [reqEntry].length + 1 :=
  c3_unmatched_response_appends [reqEntry] "s2" respC9 (by decide)

theorem processStepsE_ok_prefix_bad (msg : String) (post : List RawStep) :
    ∀ (pre : List Step) (i : Nat) (td : TurnDetails),
      processStepsE i td (pre.map RawStep.ok ++ RawStep.bad msg :: post)
        = .error (msg, processOkSteps i td pre) := by
  intro pre
  induction pre with
  | nil => intro i td; rfl
  | cons s pre ih =>
    intro i td
    simpa only [List.map_cons, List.cons_append, processStepsE, processOkSteps] using
      ih (i + 1) (processOkStep i td s)

/-- C4 counterexample: a turn whose first step already set the final
response and whose second step raises.  The extraction failure is
recorded (`success = false`, `error` set), yet the final response is
the previously extracted content, not the placeholder the claim
demands. -/
theorem c4_counterexample :
    (normalizeTurn c4Turn).success = false
    ∧ (normalizeTurn c4Turn).error = some "boom"
    ∧ (normalizeTurn c4Turn).final_response = "hello"
    ∧ (normalizeTurn c4Turn).final_response ≠ placeholderResponse := by
  refine ⟨rfl, rfl, rfl, ?_⟩
  decide

/-- C4 amended: normalization always returns; when a step raises after
a well-formed prefix, the result flags `success = false` with the
failure message in `error` and keeps exactly the reasoning steps, tool
usage and final response accumulated over that prefix (the final
response therefore stays at the placeholder only when no prefix step
had set it). -/
theorem c4_amended_partial_retention (turn : RawTurn) (pre : List Step) (msg : String)
    (post : List RawStep)
    (hsteps : turn.steps = pre.map RawStep.ok ++ RawStep.bad msg :: post) :
    (normalizeTurn turn).success = false
    ∧ (normalizeTurn turn).error = some msg
    ∧ (normalizeTurn turn).reasoning_steps
        = (processOkSteps 0 (initDetails turn) pre).reasoning_steps
    ∧ (normalizeTurn turn).tool_usage
        = (processOkSteps 0 (initDetails turn) pre).tool_usage
    ∧ (normalizeTurn turn).final_response
        = (processOkSteps 0 (initDetails turn) pre).final_response := by
  unfold normalizeTurn
  rw [hsteps, processStepsE_ok_prefix_bad]
  exact ⟨rfl, rfl, rfl, rfl, rfl⟩

theorem c4_witness :
    (normalizeTurn c4Turn).success = false
    ∧ (normalizeTurn c4Turn).error = some "boom"
    ∧ (normalizeTurn c4Turn).reasoning_steps
        = (processOkSteps 0 (initDetails c4Turn) [finalStep "hello" (some "s1")]).reasoning_steps
    ∧ (normalizeTurn c4Turn).tool_usage
        = (processOkSteps 0 (initDetails c4Turn) [finalStep "hello" (some "s1")]).tool_usage
    ∧ (normalizeTurn c4Turn).final_response
        = (processOkSteps 0 (initDetails c4Turn) [finalStep "hello" (some "s1")]).final_response :=
  c4_amended_partial_retention c4Turn [finalStep "hello" (some "s1")] "boom" [] rfl

theorem processStepBody_unknown (sid : String) (td : TurnDetails) (s : Step)
    (h1 : s.step_type ≠ "inference") (h2 : s.step_type ≠ "tool_execution") :
    processStepBody sid td s = td := by
  unfold processStepBody
  rw [if_neg h1, if_neg h2]

theorem processOkStep_index_free (i j : Nat) (td : TurnDetails) (s : Step)
    (h : s.step_type = "inference" ∨ s.step_type = "tool_execution"
        → s.step_id.isSome = true) :
    processOkStep i td s = processOkStep j td s := by
  by_cases hd : s.step_type = "inference" ∨ s.step_type = "tool_execution"
  · obtain ⟨v, hv⟩ := Option.isSome_iff_exists.mp (h hd)
    simp [processOkStep, stepIdOf, hv]
  · push_neg at hd
    rw [processOkStep, processOkStep, processStepBody_unknown _ td s hd.1 hd.2,
      processStepBody_unknown _ td s hd.1 hd.2]

theorem processStepsE_index_free (post : List RawStep)
    (h : ∀ s : Step, RawStep.ok s ∈ post
        → (s.step_type = "inference" ∨ s.step_type = "tool_execution")
        → s.step_id.isSome = true) :
    ∀ (i j : Nat) (td : TurnDetails), processStepsE i td post = processStepsE j td post := by
  induction post with
  | nil => intro i j td; rfl
  | cons rs rest ih =>
    intro i j td
    cases rs with
    | bad msg => rfl
    | ok s =>
      have hs := h s (List.mem_cons_self _ rest)
      have hrest : ∀ t : Step, RawStep.ok t ∈ rest
          → (t.step_type = "inference" ∨ t.step_type = "tool_execution")
          → t.step_id.isSome = true :=
        fun t ht => h t (List.mem_cons_of_mem _ ht)
      simp only [processStepsE, processOkStep_index_free i j td s hs]
      exact ih hrest (i + 1) (j + 1) _

theorem processStepsE_insert_unknown (u : Step)
    (hu1 : u.step_type ≠ "inference") (hu2 : u.step_type ≠ "tool_execution") :
    ∀ (pre : List RawStep) (post : List RawStep),
      (∀ s : Step, RawStep.ok s ∈ post
        → (s.step_type = "inference" ∨ s.step_type = "tool_execution")
        → s.step_id.isSome = true)
      → ∀ (i : Nat) (td : TurnDetails),
      processStepsE i td (pre ++ RawStep.ok u :: post) = processStepsE i td (pre ++ post) := by
  intro pre
  induction pre with
  | nil =>
    intro post hpost i td
    simp only [List.nil_append, processStepsE, processOkStep,
      processStepBody_unknown _ td u hu1 hu2]
    exact processStepsE_index_free post hpost (i + 1) i td
  | cons rs pre ih =>
    intro post hpost i td
    cases rs with
    | bad msg => rfl
    | ok s =>
      simp only [List.cons_append, processStepsE]
      exact ih post hpost (i + 1) _

/-- C5 counterexample: inserting an unknown-tagged step in front of an
inference step that has no explicit step id shifts the `step_<index>`
fallback of the later step, so the reasoning entries differ. -/
theorem c5_counterexample :
    mysteryStep.step_type ≠ "inference"
    ∧ mysteryStep.step_type ≠ "tool_execution"
    ∧ c5Ins.steps = [RawStep.ok mysteryStep] ++ c5Base.steps
    ∧ (normalizeTurn c5Ins).reasoning_steps ≠ (normalizeTurn c5Base).reasoning_steps := by
  refine ⟨by decide, by decide, by decide, ?_⟩
  decide

/-- C5 amended: inserting a step whose type is neither inference nor
tool-execution anywhere in the sequence leaves `reasoningSteps`,
`toolUsage` and `finalResponse` unchanged, provided every inference or
tool-execution step after the insertion point carries an explicit step
id (otherwise only its auto-generated `step_<index>` fallback id can
shift); steps of other types after the insertion point are
unconstrained, since their processing ignores the step id. -/
theorem c5_amended_unknown_step_noop (turn turn2 : RawTurn) (pre post : List RawStep)
    (u : Step) (hsteps : turn.steps = pre ++ post)
    (h2 : turn2 = { turn with steps := pre ++ RawStep.ok u :: post })
    (hu1 : u.step_type ≠ "inference") (hu2 : u.step_type ≠ "tool_execution")
    (hpost : ∀ s : Step, RawStep.ok s ∈ post
        → (s.step_type = "inference" ∨ s.step_type = "tool_execution")
        → s.step_id.isSome = true) :
    (normalizeTurn turn2).reasoning_steps = (normalizeTurn turn).reasoning_steps
    ∧ (normalizeTurn turn2).tool_usage = (normalizeTurn turn).tool_usage
    ∧ (normalizeTurn turn2).final_response = (normalizeTurn turn).final_response := by
  have hmain : normalizeTurn turn2 = normalizeTurn turn := by
    subst h2
    unfold normalizeTurn
    have hinit : initDetails { turn with steps := pre ++ RawStep.ok u :: post }
        = initDetails turn := rfl
    have hsteps2 : ({ turn with steps := pre ++ RawStep.ok u :: post } : RawTurn).steps
        = pre ++ RawStep.ok u :: post := rfl
    rw [hinit, hsteps2, hsteps, processStepsE_insert_unknown u hu1 hu2 pre post hpost]
  rw [hmain]
  exact ⟨rfl, rfl, rfl⟩

theorem c5_witness :
    (normalizeTurn c5MixIns).reasoning_steps = (normalizeTurn c5Mix).reasoning_steps
    ∧ (normalizeTurn c5MixIns).tool_usage = (normalizeTurn c5Mix).tool_usage
    ∧ (normalizeTurn c5MixIns).final_response = (normalizeTurn c5Mix).final_response :=
  c5_amended_unknown_step_noop c5Mix c5MixIns []
    [RawStep.ok mysteryStep, RawStep.ok (finalStep "hi" (some "s1"))] mysteryStep
    rfl (by decide) (by decide) (by decide)
    (by
      intro s hs hd
      simp only [List.mem_cons, List.not_mem_nil, or_false, RawStep.ok.injEq] at hs
      rcases hs with hs | hs
      · subst hs
        exact absurd hd (by decide)
      · subst hs
        rfl)

theorem processOkStep_finals (i : Nat) (td : TurnDetails) (s : Step) :
    (processOkStep i td s).reasoning_steps.filter isFinalEntry
        = td.reasoning_steps.filter isFinalEntry ++ (qualOf i s).toList.map mkFinalEntry
    ∧ (processOkStep i td s).final_response
        = lastContent td.final_response (qualOf i s).toList := by
  unfold processOkStep processStepBody qualOf
  by_cases h1 : s.step_type = "inference"
  · cases hr : s.api_model_response with
    | none => simp [h1, lastContent]
    | some r =>
      by_cases htc : r.tool_calls ≠ []
      · have hq : ¬(s.step_type = "inference" ∧ r.tool_calls = [] ∧ r.content ≠ "") := by
          intro hcon; exact htc hcon.2.1
        simp [h1, htc, hq, List.filter_append, isFinalEntry, lastContent]
      · by_cases hc : r.content ≠ ""
        · have hq : s.step_type = "inference" ∧ r.tool_calls = [] ∧ r.content ≠ "" :=
            ⟨h1, not_not.mp htc, hc⟩
          simp [h1, htc, hc, hq, List.filter_append, isFinalEntry, mkFinalEntry, lastContent]
        · have hq : ¬(s.step_type = "inference" ∧ r.tool_calls = [] ∧ r.content ≠ "") := by
            intro hcon; exact hc hcon.2.2
          simp [h1, htc, hc, hq, lastContent]
  · have hq : ∀ r : ApiModelResponse,
        ¬(s.step_type = "inference" ∧ r.tool_calls = [] ∧ r.content ≠ "") := by
      intro r hcon; exact h1 hcon.1
    by_cases h2 : s.step_type = "tool_execution"
    · cases hr : s.api_model_response with
      | none => simp [h1, h2, lastContent]
      | some r => simp [h1, h2, hq r, lastContent]
    · cases hr : s.api_model_response with
      | none => simp [h1, h2, lastContent]
      | some r => simp [h1, h2, hq r, lastContent]

theorem lastContent_append (d : String) (l1 l2 : List (String × String × String)) :
    lastContent d (l1 ++ l2) = lastContent (lastContent d l1) l2 := by
  induction l1 generalizing d with
  | nil => rfl
  | cons q l1 ih => simp only [List.cons_append, lastContent, List.append_eq, ih]

theorem processStepsE_finals (steps : List RawStep)
    (hok : ∀ rs ∈ steps, rs.isOk = true) :
    ∀ (i : Nat) (td : TurnDetails), ∃ td',
      processStepsE i td steps = .ok td'
      ∧ td'.reasoning_steps.filter isFinalEntry
          = td.reasoning_steps.filter isFinalEntry ++ (qualInfos i steps).map mkFinalEntry
      ∧ td'.final_response = lastContent td.final_response (qualInfos i steps) := by
  induction steps with
  | nil => intro i td; exact ⟨td, rfl, by simp [qualInfos, lastContent], rfl⟩
  | cons rs rest ih =>
    intro i td
    cases rs with
    | bad msg => exact absurd (hok _ (List.mem_cons_self _ rest)) (by simp [RawStep.isOk])
    | ok s =>
      have hrest : ∀ r ∈ rest, r.isOk = true := fun r hr => hok r (List.mem_cons_of_mem _ hr)
      obtain ⟨td', hE, hfil, hfin⟩ := ih hrest (i + 1) (processOkStep i td s)
      obtain ⟨hsf, hsl⟩ := processOkStep_finals i td s
      refine ⟨td', hE, ?_, ?_⟩
      · rw [hfil, hsf]
        simp [qualInfos, List.map_append, List.append_assoc]
      · rw [hfin, hsl]
        simp [qualInfos, lastContent_append]

theorem lastContent_getLast (l : List (String × String × String))
    (q : String × String × String) (hq : l.getLast? = some q) :
    ∀ d, lastContent d l = q.1 := by
  induction l with
  | nil => simp at hq
  | cons a l ih =>
    intro d
    cases l with
    | nil =>
      simp only [List.getLast?_singleton, Option.some.injEq] at hq
      simp [lastContent, hq]
    | cons b l' =>
      rw [List.getLast?_cons_cons] at hq
      exact ih hq a.1

/-- C1: on a turn whose steps are all well-formed and which contains at
least two qualifying inference steps (no tool calls, non-empty
content), the final response equals the content of the last qualifying
step, and the final-response reasoning entries are exactly one per
qualifying step, in encounter order. -/
theorem c1_last_final_response_wins (turn : RawTurn)
    (hok : ∀ rs ∈ turn.steps, rs.isOk = true)
    (_h2 : 2 ≤ (qualInfos 0 turn.steps).length) :
    (∀ q, (qualInfos 0 turn.steps).getLast? = some q
        → (normalizeTurn turn).final_response = q.1)
    ∧ (normalizeTurn turn).reasoning_steps.filter isFinalEntry
        = (qualInfos 0 turn.steps).map mkFinalEntry := by
  obtain ⟨td', hE, hfil, hfin⟩ := processStepsE_finals turn.steps hok 0 (initDetails turn)
  have hN : normalizeTurn turn
      = { td' with created_at := turn.created_at, completed_at := turn.completed_at } := by
    unfold normalizeTurn
    rw [hE]
  constructor
  · intro q hq
    rw [hN]
    show td'.final_response = q.1
    rw [hfin]
    exact lastContent_getLast _ q hq _
  · rw [hN]
    show td'.reasoning_steps.filter isFinalEntry = _
    rw [hfil]
    rfl

theorem c1_witness :
    (normalizeTurn c1Turn).final_response = "B"
    ∧ (normalizeTurn c1Turn).reasoning_steps.filter isFinalEntry
        = [.final_response "Final response generated. Stop reason: end_of_turn" "s1",
           .final_response "Final response generated. Stop reason: end_of_turn" "s2"] :=
  ⟨(c1_last_final_response_wins c1Turn (by decide) (by decide)).1
      ("B", "end_of_turn", "s2") (by decide),
   ((c1_last_final_response_wins c1Turn (by decide) (by decide)).2).trans (by decide)⟩

theorem probeId_falsy_cons (o : Option String) (l : List (Option String))
    (h : probeFalsy o) : probeId (o :: l) = probeId l := by
  rcases h with h | h <;> subst h <;> simp [probeId]

theorem probeId_truthy_cons (s : String) (l : List (Option String)) (h : s ≠ "") :
    probeId (some s :: l) = some s := by
  simp [probeId, h]

theorem matchIdAt_some (l : List Char) (run : List Char) (h : matchIdAt l = some run) :
    l.take 3 = ['i', 'd', '='] ∧ run = (l.drop 3).takeWhile idValueChar ∧ run ≠ [] := by
  by_cases h3 : l.take 3 = ['i', 'd', '=']
  · by_cases hrun : (l.drop 3).takeWhile idValueChar = []
    · simp [matchIdAt, h3, hrun] at h
    · simp only [matchIdAt, if_pos h3, if_neg hrun, Option.some.injEq] at h
      exact ⟨h3, h.symm, by rw [← h]; exact hrun⟩
  · simp [matchIdAt, h3] at h

theorem searchIdEq_cons (c : Char) (rest : List Char) :
    searchIdEq (c :: rest)
      = match matchIdAt (c :: rest) with
        | some run => some run
        | none => searchIdEq rest := rfl

theorem searchIdEq_eq_none (l : List Char)
    (h : ∀ i, matchIdAt (l.drop i) = none) : searchIdEq l = none := by
  induction l with
  | nil => rfl
  | cons c rest ih =>
    rw [searchIdEq_cons]
    have h0 := h 0
    rw [List.drop_zero] at h0
    rw [h0]
    exact ih fun i => by have := h (i + 1); rwa [List.drop_succ_cons] at this

theorem searchIdEq_first_match (i : Nat) :
    ∀ (l : List Char) (run : List Char), matchIdAt (l.drop i) = some run
      → (∀ j, j < i → matchIdAt (l.drop j) = none) → searchIdEq l = some run := by
  induction i with
  | zero =>
    intro l run h _
    rw [List.drop_zero] at h
    cases l with
    | nil => exact absurd h (by simp [matchIdAt])
    | cons c rest => rw [searchIdEq_cons, h]
  | succ i ih =>
    intro l run h hmin
    cases l with
    | nil => exact absurd h (by simp [matchIdAt])
    | cons c rest =>
      have h0 := hmin 0 (Nat.succ_pos i)
      rw [List.drop_zero] at h0
      rw [searchIdEq_cons, h0]
      rw [List.drop_succ_cons] at h
      exact ih rest run h fun j hj => by
        have := hmin (j + 1) (Nat.succ_lt_succ hj)
        rwa [List.drop_succ_cons] at this

theorem containsIdEq_of_match (i : Nat) :
    ∀ (l : List Char) (run : List Char), matchIdAt (l.drop i) = some run
      → containsIdEq l = true := by
  induction i with
  | zero =>
    intro l run h
    rw [List.drop_zero] at h
    obtain ⟨h3, -, -⟩ := matchIdAt_some _ _ h
    cases l with
    | nil => simp at h3
    | cons c rest => simp [containsIdEq, h3]
  | succ i ih =>
    intro l run h
    cases l with
    | nil => exact absurd h (by simp [matchIdAt])
    | cons c rest =>
      rw [List.drop_succ_cons] at h
      simp [containsIdEq, ih rest run h]

/-- C6: the turn id is the first present non-empty value among the
attributes `id`, `turn_id`, `identifier`, `uuid`, `turn_uuid`, probed
in that fixed order; when all five are falsy, the leftmost
`id=<value>` pattern match in the textual representation is used; when
no position matches, the turn id is `"unknown"`. -/
theorem c6_turn_id_resolution (turn : RawTurn) :
    (∀ s, turn.id = some s → s ≠ "" → resolveTurnId turn = s)
    ∧ (probeFalsy turn.id
        → ∀ s, turn.turn_id = some s → s ≠ "" → resolveTurnId turn = s)
    ∧ (probeFalsy turn.id → probeFalsy turn.turn_id
        → ∀ s, turn.identifier = some s → s ≠ "" → resolveTurnId turn = s)
    ∧ (probeFalsy turn.id → probeFalsy turn.turn_id → probeFalsy turn.identifier
        → ∀ s, turn.uuid = some s → s ≠ "" → resolveTurnId turn = s)
    ∧ (probeFalsy turn.id → probeFalsy turn.turn_id → probeFalsy turn.identifier
        → probeFalsy turn.uuid
        → ∀ s, turn.turn_uuid = some s → s ≠ "" → resolveTurnId turn = s)
    ∧ (probeFalsy turn.id → probeFalsy turn.turn_id → probeFalsy turn.identifier
        → probeFalsy turn.uuid → probeFalsy turn.turn_uuid
        → (∀ i, matchIdAt (turn.repr.toList.drop i) = none)
        → resolveTurnId turn = "unknown")
    ∧ (probeFalsy turn.id → probeFalsy turn.turn_id → probeFalsy turn.identifier
        → probeFalsy turn.uuid → probeFalsy turn.turn_uuid
        → ∀ i run, matchIdAt (turn.repr.toList.drop i) = some run
        → (∀ j, j < i → matchIdAt (turn.repr.toList.drop j) = none)
        → resolveTurnId turn = String.mk run) := by
  refine ⟨?_, ?_, ?_, ?_, ?_, ?_, ?_⟩
  · intro s hs hne
    unfold resolveTurnId
    rw [hs, probeId_truthy_cons _ _ hne]
  · intro h1 s hs hne
    unfold resolveTurnId
    rw [probeId_falsy_cons _ _ h1, hs, probeId_truthy_cons _ _ hne]
  · intro h1 h2 s hs hne
    unfold resolveTurnId
    rw [probeId_falsy_cons _ _ h1, probeId_falsy_cons _ _ h2, hs,
      probeId_truthy_cons _ _ hne]
  · intro h1 h2 h3 s hs hne
    unfold resolveTurnId
    rw [probeId_falsy_cons _ _ h1, probeId_falsy_cons _ _ h2, probeId_falsy_cons _ _ h3,
      hs, probeId_truthy_cons _ _ hne]
  · intro h1 h2 h3 h4 s hs hne
    unfold resolveTurnId
    rw [probeId_falsy_cons _ _ h1, probeId_falsy_cons _ _ h2, probeId_falsy_cons _ _ h3,
      probeId_falsy_cons _ _ h4, hs, probeId_truthy_cons _ _ hne]
  · intro h1 h2 h3 h4 h5 hnone
    unfold resolveTurnId
    rw [probeId_falsy_cons _ _ h1, probeId_falsy_cons _ _ h2, probeId_falsy_cons _ _ h3,
      probeId_falsy_cons _ _ h4, probeId_falsy_cons _ _ h5]
    rw [show probeId [] = none from rfl, searchIdEq_eq_none _ hnone]
    cases containsIdEq turn.repr.toList <;> rfl
  · intro h1 h2 h3 h4 h5 i run hmatch hmin
    unfold resolveTurnId
    rw [probeId_falsy_cons _ _ h1, probeId_falsy_cons _ _ h2, probeId_falsy_cons _ _ h3,
      probeId_falsy_cons _ _ h4, probeId_falsy_cons _ _ h5]
    rw [show probeId [] = none from rfl,
      searchIdEq_first_match i _ run hmatch hmin, containsIdEq_of_match i _ run hmatch]
    simp

theorem c6_witness : resolveTurnId c6Turn = "t42" :=
  (c6_turn_id_resolution c6Turn).2.1 (Or.inl rfl) "t42" rfl (by decide)

/-- C7: starting from a cache without an agent, the first `get_agent`
call constructs exactly one agent bound to the requested model; a
second call — even with a different model — returns the identical
handle, changes no state and constructs nothing, and `reset_session`
(the only reset operation) leaves the agent untouched. -/
theorem c7_agent_cached_once (st : ServiceState) (m1 m2 : String) (h : st.agent = none) :
    (get_agent (get_agent st m1).1 m2).2 = (get_agent st m1).2
    ∧ (get_agent (get_agent st m1).1 m2).1 = (get_agent st m1).1
    ∧ (get_agent st m1).2.model = m1
    ∧ (get_agent (get_agent st m1).1 m2).2.model = m1
    ∧ (get_agent st m1).1.agents_created = st.agents_created + 1
    ∧ (get_agent (get_agent st m1).1 m2).1.agents_created = st.agents_created + 1
    ∧ (reset_session (get_agent (get_agent st m1).1 m2).1).agent
        = (get_agent (get_agent st m1).1 m2).1.agent := by
  cases hc : st.client <;>
    simp [get_agent, get_client, reset_session, h, hc]

theorem c7_witness :
    (get_agent (get_agent freshService "llama-3").1 "granite").2
        = (get_agent freshService "llama-3").2
    ∧ (get_agent (get_agent freshService "llama-3").1 "granite").1
        = (get_agent freshService "llama-3").1
    ∧ (get_agent freshService "llama-3").2.model = "llama-3"
    ∧ (get_agent (get_agent freshService "llama-3").1 "granite").2.model = "llama-3"
    ∧ (get_agent freshService "llama-3").1.agents_created = freshService.agents_created + 1
    ∧ (get_agent (get_agent freshService "llama-3").1 "granite").1.agents_created
        = freshService.agents_created + 1
    ∧ (reset_session (get_agent (get_agent freshService "llama-3").1 "granite").1).agent
        = (get_agent (get_agent freshService "llama-3").1 "granite").1.agent :=
  c7_agent_cached_once freshService "llama-3" "granite" rfl

/-- C8: `get_session_id` twice without a reset returns the identical
cached id and leaves the state unchanged on the second call;
`reset_session` clears only the session id (agent and client are
untouched); the next `get_session_id` after the reset creates a fresh
session whose id differs from the first. -/
theorem c8_session_reset_frame (st : ServiceState) (m : String) (h : st.session_id = none) :
    (get_session_id (get_session_id st m).1 m).2 = (get_session_id st m).2
    ∧ (get_session_id (get_session_id st m).1 m).1 = (get_session_id st m).1
    ∧ (reset_session (get_session_id st m).1).agent = (get_session_id st m).1.agent
    ∧ (reset_session (get_session_id st m).1).client = (get_session_id st m).1.client
    ∧ (reset_session (get_session_id st m).1).session_id = none
    ∧ (get_session_id (reset_session (get_session_id st m).1) m).2
        ≠ (get_session_id st m).2 := by
  cases ha : st.agent with
  | some a => simp [get_session_id, get_agent, reset_session, h, ha]
  | none =>
    cases hc : st.client <;>
      simp [get_session_id, get_agent, get_client, reset_session, h, ha, hc]

theorem c8_witness :
    (get_session_id (get_session_id freshService "llama-3").1 "llama-3").2
        = (get_session_id freshService "llama-3").2
    ∧ (get_session_id (get_session_id freshService "llama-3").1 "llama-3").1
        = (get_session_id freshService "llama-3").1
    ∧ (reset_session (get_session_id freshService "llama-3").1).agent
        = (get_session_id freshService "llama-3").1.agent
    ∧ (reset_session (get_session_id freshService "llama-3").1).client
        = (get_session_id freshService "llama-3").1.client
    ∧ (reset_session (get_session_id freshService "llama-3").1).session_id = none
    ∧ (get_session_id (reset_session (get_session_id freshService "llama-3").1) "llama-3").2
        ≠ (get_session_id freshService "llama-3").2 :=
  c8_session_reset_frame freshService "llama-3" rfl

theorem processModel_bad (acc : List String) (msg : String) :
    processModel acc (.bad msg) = acc := rfl

theorem processModelSimple_bad (acc : List String) (msg : String) :
    processModelSimple acc (.bad msg) = acc := rfl

/-- C9: model listing fails soft in both service variants: a raised
list call yields the empty list, a `None` response yields the empty
list, and a model entry whose processing raises is skipped without
affecting the rest — the function always returns a plain list of
strings (it is total) and never propagates an error. -/
theorem c9_list_models_fails_soft :
    (∀ e, get_available_models (Except.error e) = [])
    ∧ get_available_models (Except.ok none) = []
    ∧ (∀ pre post msg,
        get_available_models (Except.ok (some (pre ++ ModelObj.bad msg :: post)))
          = get_available_models (Except.ok (some (pre ++ post))))
    ∧ (∀ e, get_available_models_simple (Except.error e) = [])
    ∧ get_available_models_simple (Except.ok none) = []
    ∧ (∀ pre post msg,
        get_available_models_simple (Except.ok (some (pre ++ ModelObj.bad msg :: post)))
          = get_available_models_simple (Except.ok (some (pre ++ post)))) := by
  refine ⟨fun e => rfl, rfl, ?_, fun e => rfl, rfl, ?_⟩
  · intro pre post msg
    simp [get_available_models, List.foldl_append, processModel_bad]
  · intro pre post msg
    simp [get_available_models_simple, List.foldl_append, processModelSimple_bad]

theorem c9_witness :
    get_available_models (Except.error "connection refused") = []
    ∧ get_available_models
        (Except.ok (some [ModelObj.bad "broken entry", ModelObj.pystr "llama-3"]))
      = get_available_models (Except.ok (some [ModelObj.pystr "llama-3"])) :=
  ⟨c9_list_models_fails_soft.1 "connection refused",
   c9_list_models_fails_soft.2.2.1 [] [ModelObj.pystr "llama-3"] "broken entry"⟩

/-- C10 counterexample: an extraction failure inside `send_message`
returns the fixed apology string, which does not carry the `❌` error
marker — so not every failure string is marker-prefixed as the claim
states. -/
theorem c10_counterexample :
    send_message (Except.ok (TurnResponse.bad "unexpected shape"))
        = "Sorry, I encountered an error processing the response."
    ∧ hasErrorMarker (send_message (Except.ok (TurnResponse.bad "unexpected shape"))) = false := by
  exact ⟨rfl, by decide⟩

/-- C10 amended: `send_message` always returns a string (it is total in
this model — no `None`, no exception); a backend failure yields the
`❌`-marked error string, while an extraction failure yields the fixed
apology string without the marker; the simple variant marks every
failure. -/
theorem c10_amended_error_strings :
    (∀ msg, send_message (Except.error msg)
        = "❌ Error communicating with ReActAgent: " ++ msg)
    ∧ (∀ msg, hasErrorMarker (send_message (Except.error msg)) = true)
    ∧ (∀ msg, send_message (Except.ok (TurnResponse.bad msg))
        = "Sorry, I encountered an error processing the response.")
    ∧ (∀ msg, send_message_simple (Except.error msg)
        = "❌ Error communicating with model: " ++ msg)
    ∧ (∀ msg, hasErrorMarker (send_message_simple (Except.error msg)) = true) := by
  refine ⟨fun msg => rfl, ?_, fun msg => rfl, fun msg => rfl, ?_⟩
  · intro msg
    cases msg with
    | mk data => rfl
  · intro msg
    cases msg with
    | mk data => rfl

theorem c10_witness :
    send_message (Except.error "timeout")
        = "❌ Error communicating with ReActAgent: " ++ "timeout"
    ∧ hasErrorMarker (send_message (Except.error "timeout")) = true
    ∧ send_message_simple (Except.error "timeout")
        = "❌ Error communicating with model: " ++ "timeout" :=
  ⟨c10_amended_error_strings.1 "timeout", c10_amended_error_strings.2.1 "timeout",
   c10_amended_error_strings.2.2.2.1 "timeout"⟩

end StreamlitLlamastack
